import Mathlib

/-!
Shallow embedding of the genome-metrics pipeline of `scripts/genome_metrics.py`
(repository `happykhan/genomeclash`).

Text lines are modelled as `List Char` (one list per line, line terminators
removed, which does not change any of the computed quantities).  Python
dictionaries are modelled as association lists in insertion order with
last-occurrence-wins lookup, which matches dict insert-overwrite semantics.
Python floats are modelled as exact rationals; `round(x, n)` is modelled as
rational rounding to `n` decimal places (Python rounds half-to-even at the
float level, this model rounds half-up, which agrees off exact ties).
-/

/-- The whitespace characters removed by Python's `str.strip()` (ASCII part). -/
def isPyWhitespace (c : Char) : Bool :=
  c = ' ' || c = '\t' || c = '\n' || c = '\r' || c = '\x0b' || c = '\x0c'

def trimLeftPy : List Char → List Char
  | [] => []
  | c :: rest => if isPyWhitespace c then trimLeftPy rest else c :: rest

/-- Python `str.strip()` on a line of characters. -/
def pyStrip (l : List Char) : List Char :=
  ((trimLeftPy ((trimLeftPy l).reverse)).reverse)

/-- Python `str.strip()` on a `String`. -/
def pyStripStr (s : String) : String :=
  String.mk (pyStrip s.toList)

/-- Python `line.rstrip("\n")`. -/
def rstripNewline (l : List Char) : List Char :=
  (l.reverse.dropWhile (fun c => c = '\n')).reverse

/-- Python `s.split(sep)` for a single-character separator. -/
def splitOnChar (sep : Char) : List Char → List (List Char)
  | [] => [[]]
  | c :: rest =>
    if c = sep then [] :: splitOnChar sep rest
    else
      match splitOnChar sep rest with
      | [] => [[c]]
      | h :: t => (c :: h) :: t

/-- Python `s.split(sep, 1)` restricted to the case `sep in s`: the part
before the first separator and the part after it (`none` when absent). -/
def splitFirst (sep : Char) : List Char → Option (List Char × List Char)
  | [] => none
  | c :: rest =>
    if c = sep then some ([], rest)
    else (splitFirst sep rest).map (fun p => (c :: p.1, p.2))

/-- `needle` occurs as a contiguous run at the start of `hay`. -/
def listPrefixOf : List Char → List Char → Bool
  | [], _ => true
  | _ :: _, [] => false
  | a :: as, b :: bs => a = b && listPrefixOf as bs

/-- Python `needle in hay` substring containment. -/
def listInfixOf (needle : List Char) : List Char → Bool
  | [] => listPrefixOf needle []
  | c :: rest => listPrefixOf needle (c :: rest) || listInfixOf needle rest

/-- Python `dict` lookup for a dict built by inserting the pairs of `l` in
order (a later pair with the same key overwrites an earlier one). -/
def dictGet {κ α : Type} [DecidableEq κ] (l : List (κ × α)) (k : κ) : Option α :=
  (l.reverse.find? (fun p => p.1 = k)).map (fun p => p.2)

/-- Python `k in dict` for the same association-list model. -/
def dictHas {κ α : Type} [DecidableEq κ] (l : List (κ × α)) (k : κ) : Bool :=
  l.any (fun p => p.1 = k)

/-- A word character of Python's `re` module (`\w`, ASCII part). -/
def isWordChar (c : Char) : Bool :=
  c.isAlphanum || c = '_'

/-- After `IS` the regex `\bIS\d+\b` needs the remaining digit run followed
by a word boundary: skip digits, then demand a non-word character or the end. -/
def digitRunThenBoundary : List Char → Bool
  | [] => true
  | c :: rest => if c.isDigit then digitRunThenBoundary rest else !(isWordChar c)

/-- At least one digit, then `digitRunThenBoundary`. -/
def digitsThenBoundary : List Char → Bool
  | [] => false
  | c :: rest => c.isDigit && digitRunThenBoundary rest

/-- The regex `IS\d+\b` (case-insensitive) matches at the head of the list. -/
def matchISHere : List Char → Bool
  | c1 :: c2 :: rest =>
    (c1 = 'I' || c1 = 'i') && (c2 = 'S' || c2 = 's') && digitsThenBoundary rest
  | _ => false

/-- `re.search` of `\bIS\d+\b` (case-insensitive): the flag records whether
the previous character was a word character (for the leading `\b`). -/
def searchISFrom (prevWord : Bool) : List Char → Bool
  | [] => false
  | c :: rest =>
    (!prevWord && matchISHere (c :: rest)) || searchISFrom (isWordChar c) rest

/-- `IS_REGEX.search(value)`: the compiled pattern `\bIS\d+\b` with
`re.IGNORECASE`. -/
def isRegexSearch (value : List Char) : Bool :=
  searchISFrom false value

/-- `IS_KEYWORDS` from the source, verbatim (note the capitalised
`IS element` entry). -/
def IS_KEYWORDS : List (List Char) :=
  ["insertion sequence".toList,
   "transposase".toList,
   "mobile element".toList,
   "mobile_element".toList,
   "insertion-sequence".toList,
   "IS element".toList]

/-- Result triple of `parse_fasta`. -/
structure FastaCounts where
  total_len : Nat
  gc : Nat
  n_count : Nat
deriving DecidableEq, Inhabited

/-- `parse_fasta`: skip empty lines and `>` header lines; strip and
uppercase the rest; accumulate length, G+C count and N count. -/
def parse_fasta : List (List Char) → FastaCounts
  | [] => ⟨0, 0, 0⟩
  | line :: rest =>
    let acc := parse_fasta rest
    if line = [] ∨ line.head? = some '>' then acc
    else
      let seq := (pyStrip line).map Char.toUpper
      ⟨seq.length + acc.total_len,
       (seq.count 'G' + seq.count 'C') + acc.gc,
       seq.count 'N' + acc.n_count⟩

/-- `parse_gff_attributes`: split the ninth column on `;`, drop empty items,
split each item on the first `=` (bare keys map to the empty value). -/
def parse_gff_attributes (attr_text : List Char) : List (List Char × List Char) :=
  (splitOnChar ';' attr_text).filterMap (fun item =>
    if item = [] then none
    else
      match splitFirst '=' item with
      | some kv => some kv
      | none => some (item, []))

/-- The feature types classified as mobile elements outright. -/
def mobileFeatureTypes : List (List Char) :=
  ["mobile_element".toList, "repeat_region".toList,
   "insertion_sequence".toList, "transposable_element".toList]

/-- The attribute keys inspected by `is_is_element`. -/
def isAttrKeys : List (List Char) :=
  ["product".toList, "note".toList, "gene".toList, "mobile_element_type".toList]

/-- Python truthiness of `attrs.get(key)` (a missing key or an empty string
is falsy). -/
def pyTruthyVal (o : Option (List Char)) : Bool :=
  match o with
  | some (_ :: _) => true
  | _ => false

/-- `is_is_element` from the source: feature-type set membership, then for
each inspected key a keyword-substring check on the lowercased value and a
regex search on the raw value. -/
def is_is_element (feature_type : List Char) (attrs : List (List Char × List Char)) : Bool :=
  if feature_type ∈ mobileFeatureTypes then true
  else
    isAttrKeys.any (fun key =>
      let value := (dictGet attrs key).getD []
      if value = [] then false
      else
        let lower := value.map Char.toLower
        if IS_KEYWORDS.any (fun word => listInfixOf word lower) then true
        else isRegexSearch value)

/-- Result of `parse_gff`. -/
structure GffCounts where
  total_cdss : Nat
  pseudogenes : Nat
  is_elements : Nat
  trnas : Nat
deriving DecidableEq, Inhabited

/-- `parse_gff`: skip comment and empty lines, drop rows of fewer than nine
tab-separated fields, then classify by feature type and attributes. -/
def parse_gff : List (List Char) → GffCounts
  | [] => ⟨0, 0, 0, 0⟩
  | line :: rest =>
    let acc := parse_gff rest
    if line = [] ∨ line.head? = some '#' then acc
    else
      let parts := splitOnChar '\t' (rstripNewline line)
      if parts.length < 9 then acc
      else
        let feature_type := parts.getD 2 []
        let attrs := parse_gff_attributes (parts.getD 8 [])
        let cds_inc : Nat := if feature_type = "CDS".toList then 1 else 0
        let pseudo_cds_inc : Nat :=
          if feature_type = "CDS".toList ∧
              (dictHas attrs "pseudo".toList = true ∨
               pyTruthyVal (dictGet attrs "pseudogene".toList) = true)
          then 1 else 0
        let pseudo_feat_inc : Nat := if feature_type = "pseudogene".toList then 1 else 0
        let trna_inc : Nat := if feature_type = "tRNA".toList then 1 else 0
        let is_inc : Nat := if is_is_element feature_type attrs then 1 else 0
        ⟨cds_inc + acc.total_cdss,
         (pseudo_cds_inc + pseudo_feat_inc) + acc.pseudogenes,
         is_inc + acc.is_elements,
         trna_inc + acc.trnas⟩

/-- `AssemblyMeta` from the source (one line of the assembly data report). -/
structure AssemblyMeta where
  accession : String
  species : String
  taxonomy_id : Option Int
  assembly_level : Option String
  release_date : Option String
  strain : Option String
  species_ani : Option String
  total_sequence_length : Option Int
  gc_count : Option Int
  atgc_count : Option Int
  gc_percent : Option ℚ
  total_cdss : Option Int
  pseudogenes : Option Int
deriving DecidableEq, Inhabited

/-- One line of the newline-delimited JSON metadata report, reduced to the
leaf values the loader reads (`none` models an absent or `null` JSON key;
aliases mirror the fallback key names tried by the loader). -/
structure RawAssemblyRecord where
  accession : Option String
  assembly_accession : Option String
  currentAccession : Option String
  organismName : Option String
  organism_name : Option String
  taxonName : Option String
  tax_id : Option Int
  taxId : Option Int
  taxonTaxId : Option Int
  assembly_level : Option String
  assemblyLevel : Option String
  release_date : Option String
  releaseDate : Option String
  strain_infraspecific : Option String
  strainInfraspecific : Option String
  bestAniOrganismName : Option String
  totalSequenceLength : Option Int
  gcCount : Option Int
  atgcCount : Option Int
  gcPercent : Option ℚ
  proteinCoding : Option Int
  geneCountTotal : Option Int
  pseudogeneCount : Option Int
deriving DecidableEq, Inhabited

/-- Python `a or b` on optional strings (`None` and `""` are falsy). -/
def pyOrStr (a b : Option String) : Option String :=
  match a with
  | some s => if s = "" then b else some s
  | none => b

/-- Python `a or b` on optional integers (`None` and `0` are falsy). -/
def pyOrInt (a b : Option Int) : Option Int :=
  match a with
  | some n => if n = 0 then b else some n
  | none => b

/-- Python truthiness filter on an optional string: `none` when the value is
absent or empty, the value itself otherwise. -/
def strTruthy (o : Option String) : Option String :=
  match o with
  | some s => if s = "" then none else some s
  | none => none

/-- `int(x) if x else None`: keep a numeric value only when present and
non-zero. -/
def coerceNonzero (o : Option Int) : Option Int :=
  match o with
  | some n => if n = 0 then none else some n
  | none => none

/-- The body of the `load_metadata` loop for one report line: extract the
aliased fields, skip the line when accession or species is missing/empty,
coerce the numeric fields. -/
def load_metadata_line (r : RawAssemblyRecord) : Option AssemblyMeta :=
  let accession := pyOrStr (pyOrStr r.accession r.assembly_accession) r.currentAccession
  let species := pyOrStr (pyOrStr r.organismName r.organism_name) r.taxonName
  let taxonomy_id := pyOrInt (pyOrInt r.tax_id r.taxId) r.taxonTaxId
  let assembly_level := pyOrStr r.assembly_level r.assemblyLevel
  let release_date := pyOrStr r.release_date r.releaseDate
  let strain := pyOrStr r.strain_infraspecific r.strainInfraspecific
  let total_cdss_raw := pyOrInt r.proteinCoding r.geneCountTotal
  match strTruthy accession, strTruthy species with
  | some acc, some sp =>
    some
      { accession := acc
        species := sp
        taxonomy_id := taxonomy_id
        assembly_level := assembly_level
        release_date := release_date
        strain := strain
        species_ani := r.bestAniOrganismName
        total_sequence_length := coerceNonzero r.totalSequenceLength
        gc_count := coerceNonzero r.gcCount
        atgc_count := coerceNonzero r.atgcCount
        gc_percent := r.gcPercent
        total_cdss := coerceNonzero total_cdss_raw
        pseudogenes := coerceNonzero r.pseudogeneCount }
  | _, _ => none

/-- `load_metadata`: fold the report lines into an accession-keyed dict
(`dictGet` gives the later line precedence, like dict assignment). -/
def load_metadata (lines : List RawAssemblyRecord) : List (String × AssemblyMeta) :=
  (lines.filterMap load_metadata_line).map (fun m => (m.accession, m))

/-- A file inside an assembly directory: its name and its text lines. -/
structure NamedFile where
  fname : List Char
  lines : List (List Char)
deriving DecidableEq, Inhabited

/-- A resolved assembly directory: its name (the accession) and the `.fna`
and `.gff`/`.gff3` files found under it, in glob order. -/
structure AssemblyDir where
  dname : String
  fnaFiles : List NamedFile
  gffFiles : List NamedFile
deriving DecidableEq, Inhabited

/-- `pick_file`: the first file whose name contains the first matching
preferred token, else the first file, else `none`. -/
def pick_file (paths : List NamedFile) (preferred_tokens : List (List Char)) : Option NamedFile :=
  match (preferred_tokens.filterMap
      (fun token => paths.find? (fun p => listInfixOf token p.fname))).head? with
  | some p => some p
  | none => paths.head?

def fastaTokens : List (List Char) := ["genomic.fna".toList, "genome.fna".toList]

def gffTokens : List (List Char) := ["genomic.gff".toList, "genome.gff".toList, ".gff3".toList]

/-- One curation row as loaded by `load_curation`. -/
structure CurationEntry where
  species : String
  factoid : String
  display_species : String
  display_strain_name : String
deriving DecidableEq, Inhabited

/-- The output record assembled per genome (`assemble_metrics` return dict;
the last four fields are the pass-through columns filled in by `main`). -/
structure GenomeMetricRecord where
  species : String
  assembly_accession : String
  taxonomy_id : Option Int
  assembly_level : Option String
  release_date : Option String
  strain : Option String
  species_ani : Option String
  display_species : Option String
  display_strain_name : Option String
  genome_size_mb : ℚ
  total_cdss : Int
  pseudogenes : Int
  trna : Nat
  gc_content_pct : ℚ
  is_elements : Nat
  is_elements_per_mb : ℚ
  factoid : String
  taxid_input : Option String
  phylum : Option String
  gram_stain : Option String
  who_priority : Option String
deriving DecidableEq, Inhabited

/-- Python `round(q, ndigits)` on an exact rational (rounds half up where
Python's float rounding rounds half to even; equal off exact ties). -/
def pyRound (ndigits : Nat) (q : ℚ) : ℚ :=
  ((round (q * (10 : ℚ) ^ ndigits) : ℤ) : ℚ) / (10 : ℚ) ^ ndigits

/-- `genome_len = meta_total_len or total_len` from `assemble_metrics`. -/
def reconciled_length (meta : Option AssemblyMeta) (local_total : Nat) : Int :=
  match meta.bind (fun m => m.total_sequence_length) with
  | some n => if n = 0 then (local_total : Int) else n
  | none => (local_total : Int)

/-- The record-building tail of `assemble_metrics` (everything after the two
input files have been picked and parsed). -/
def buildRecord (accession : String) (meta : Option AssemblyMeta)
    (curated : Option CurationEntry) (fc : FastaCounts) (gf : GffCounts) :
    GenomeMetricRecord :=
  let species := match meta with
    | some m => if m.species = "" then accession else m.species
    | none => accession
  let meta_gc := meta.bind (fun m => m.gc_count)
  let meta_atgc := meta.bind (fun m => m.atgc_count)
  let meta_total_cdss := meta.bind (fun m => m.total_cdss)
  let meta_pseudogenes := meta.bind (fun m => m.pseudogenes)
  let genome_len : Int := reconciled_length meta fc.total_len
  let genome_size_mb : ℚ := if genome_len = 0 then 0 else (genome_len : ℚ) / 1000000
  let local_gc_pct : ℚ :=
    if fc.total_len = 0 then 0 else (fc.gc : ℚ) / (fc.total_len : ℚ) * 100
  let gc_content_pct : ℚ :=
    match meta_gc, meta_atgc with
    | some g, some a => if a = 0 then local_gc_pct else (g : ℚ) / (a : ℚ) * 100
    | some _, none => local_gc_pct
    | none, _ => local_gc_pct
  let total_cdss : Int := match meta_total_cdss with
    | some n => n
    | none => (gf.total_cdss : Int)
  let pseudogenes : Int := match meta_pseudogenes with
    | some n => n
    | none => (gf.pseudogenes : Int)
  let is_elements_per_mb : ℚ :=
    if genome_size_mb = 0 then 0 else (gf.is_elements : ℚ) / genome_size_mb
  let factoid := match curated with
    | some c => c.factoid
    | none => ""
  let display_species := match curated with
    | some c => c.display_species
    | none => ""
  let display_strain_name := match curated with
    | some c => c.display_strain_name
    | none => ""
  { species := species
    assembly_accession := accession
    taxonomy_id := meta.bind (fun m => m.taxonomy_id)
    assembly_level := meta.bind (fun m => m.assembly_level)
    release_date := meta.bind (fun m => m.release_date)
    strain := meta.bind (fun m => m.strain)
    species_ani := meta.bind (fun m => m.species_ani)
    display_species := if display_species = "" then none else some display_species
    display_strain_name := if display_strain_name = "" then none else some display_strain_name
    genome_size_mb := pyRound 3 genome_size_mb
    total_cdss := total_cdss
    pseudogenes := pseudogenes
    trna := gf.trnas
    gc_content_pct := pyRound 2 gc_content_pct
    is_elements := gf.is_elements
    is_elements_per_mb := pyRound 3 is_elements_per_mb
    factoid := factoid
    taxid_input := none
    phylum := none
    gram_stain := none
    who_priority := none }

/-- `assemble_metrics`: pick one sequence and one annotation file (or give
up), parse both, and build the record for the directory-name accession. -/
def assemble_metrics (dir : AssemblyDir) (meta_map : List (String × AssemblyMeta))
    (curation : List (String × CurationEntry)) : Option GenomeMetricRecord :=
  match pick_file dir.fnaFiles fastaTokens, pick_file dir.gffFiles gffTokens with
  | some fasta_path, some gff_path =>
    some (buildRecord dir.dname (dictGet meta_map dir.dname) (dictGet curation dir.dname)
      (parse_fasta fasta_path.lines) (parse_gff gff_path.lines))
  | _, _ => none

/-- One row of the input reference table, reduced to the keys `main` reads
(`none` models an absent key). -/
structure RefRow where
  assembly_accession : Option String
  accession : Option String
  taxid_input : Option String
  phylum : Option String
  gram_stain : Option String
  who_priority : Option String
deriving DecidableEq, Inhabited

/-- `extract_accession`: `row.get("assembly_accession") or row.get("accession")`,
stripped, `None` when the result is empty or absent. -/
def extract_accession (row : RefRow) : Option String :=
  match pyOrStr row.assembly_accession row.accession with
  | some s => if pyStripStr s = "" then none else some (pyStripStr s)
  | none => none

/-- The dataset the external fetcher yields for one accession: the metadata
report lines and the assembly directories under `data/`, in listing order. -/
structure Dataset where
  reportLines : List RawAssemblyRecord
  assemblies : List AssemblyDir
deriving Inhabited

/-- `select_assembly_dir`: the directory whose name equals the accession,
else the first directory, else `none`. -/
def select_assembly_dir (assemblies : List AssemblyDir) (accession : String) :
    Option AssemblyDir :=
  match assemblies.find? (fun d => d.dname = accession) with
  | some d => some d
  | none => assemblies.head?

/-- The pass-through block of `main`: copy `taxid_input`, `phylum`,
`gram_stain` and `who_priority` from the reference row when present there. -/
def attach_passthrough (ref_row : RefRow) (rec : GenomeMetricRecord) :
    GenomeMetricRecord :=
  let rec1 := if ref_row.taxid_input.isSome ∧ rec.taxid_input = none
    then { rec with taxid_input := ref_row.taxid_input } else rec
  let rec2 := if ref_row.phylum.isSome
    then { rec1 with phylum := ref_row.phylum } else rec1
  let rec3 := if ref_row.gram_stain.isSome
    then { rec2 with gram_stain := ref_row.gram_stain } else rec2
  if ref_row.who_priority.isSome
    then { rec3 with who_priority := ref_row.who_priority } else rec3

/-- One iteration of the `main` loop for one reference row, against an
environment `env` mapping each accession to its fetched dataset: `none`
exactly when the row is skipped without producing a record. -/
def processRow (env : String → Dataset) (curation : List (String × CurationEntry))
    (row : RefRow) : Option GenomeMetricRecord :=
  match extract_accession row with
  | none => none
  | some accession =>
    let ds := env accession
    let meta_map := load_metadata ds.reportLines
    match select_assembly_dir ds.assemblies accession with
    | none => none
    | some assembly_dir =>
      match assemble_metrics assembly_dir meta_map curation with
      | none => none
      | some rec => some (attach_passthrough row rec)

/-- The record-accumulation and exit-code logic of `main`: the produced
records and the process exit status (1 for an empty input table or zero
produced records, 0 otherwise). -/
def runBatch (env : String → Dataset) (curation : List (String × CurationEntry))
    (reference_rows : List RefRow) : List GenomeMetricRecord × Int :=
  if reference_rows = [] then ([], 1)
  else
    let rows := reference_rows.filterMap (processRow env curation)
    if rows = [] then (rows, 1) else (rows, 0)

/-- The curation CSV as a header row plus data rows (each data row is the
`DictReader` mapping from column name to cell, in column order). -/
structure CurationFile where
  fieldnames : List String
  rows : List (List (String × String))
deriving DecidableEq, Inhabited

/-- The two keys `append_missing_curation` reads from each metric record
(`row.get(...)` on the record dict). -/
structure MetricRowIn where
  assembly_accession : Option String
  species : Option String
deriving DecidableEq, Inhabited

def curationFieldnamesDefault : List String :=
  ["assembly_accession", "species", "factoid", "display_species", "display_strain_name"]

/-- The trimmed, non-empty accessions keyed by the existing curation rows. -/
def existingKeys (rows : List (List (String × String))) : List String :=
  rows.filterMap (fun row =>
    let a := pyStripStr ((dictGet row "assembly_accession").getD "")
    if a = "" then none else some a)

/-- The dict appended for one previously uncurated accession. -/
def newCurationRow (accession : String) (species : String) : List (String × String) :=
  [("assembly_accession", accession), ("species", species), ("factoid", ""),
   ("display_species", ""), ("display_strain_name", "")]

/-- The `new_rows` loop of `append_missing_curation`: keep records whose raw
accession is truthy and not already keyed in the file. -/
def computeNewRows (existing : List String) (rows : List MetricRowIn) :
    List (List (String × String)) :=
  rows.filterMap (fun row =>
    match row.assembly_accession with
    | none => none
    | some accession =>
      if accession = "" ∨ accession ∈ existing then none
      else some (newCurationRow accession (row.species.getD "")))

/-- `csv.DictWriter.writerow`: emit the cells in fieldname order, with the
empty string for a fieldname the dict lacks. -/
def serializeRow (fieldnames : List String) (row : List (String × String)) :
    List (String × String) :=
  fieldnames.map (fun fn => (fn, (dictGet row fn).getD ""))

/-- `DictWriter` raises `ValueError` when the dict holds a key outside the
fieldnames. -/
def rowHasExtraKey (fieldnames : List String) (row : List (String × String)) : Bool :=
  row.any (fun kv => decide (kv.1 ∉ fieldnames))

/-- The fieldnames the writer uses: the file's own header when the file
exists and is non-empty, else the default five columns. -/
def effFieldnames (file : Option CurationFile) : List String :=
  match file with
  | some f => if f.fieldnames = [] then curationFieldnamesDefault else f.fieldnames
  | none => curationFieldnamesDefault

/-- The data rows already in the file (none when the file is absent). -/
def oldRowsOf (file : Option CurationFile) : List (List (String × String)) :=
  match file with
  | some f => f.rows
  | none => []

/-- `append_missing_curation` as a pure transformer of the curation file
(`none` = the file does not exist): read the existing keys, compute the
missing rows, return early when there are none, else append them under the
file's fieldnames (writing the header when the file was empty or absent),
raising `ValueError` like `csv.DictWriter` when a row holds a key outside
the fieldnames. -/
def append_missing_curation (file : Option CurationFile) (rows : List MetricRowIn) :
    Except String (Option CurationFile) :=
  let fieldnames := effFieldnames file
  let oldRows := oldRowsOf file
  let existing := existingKeys oldRows
  let new_rows := computeNewRows existing rows
  if new_rows = [] then Except.ok file
  else if new_rows.any (fun row => rowHasExtraKey fieldnames row) then
    Except.error "ValueError"
  else
    Except.ok (some { fieldnames := fieldnames
                      rows := oldRows ++ new_rows.map (serializeRow fieldnames) })

/-- The processed form of one sequence line (stripped, uppercased). -/
def fastaSeqLine (l : List Char) : List Char :=
  (pyStrip l).map Char.toUpper

/-- The non-header lines of a sequence file, as the specification describes
them. -/
def nonHeaderLines (lines : List (List Char)) : List (List Char) :=
  lines.filter (fun l => ¬ l.head? = some '>')

theorem dictGet_eq_some_mem {κ α : Type} [DecidableEq κ] {l : List (κ × α)} {k : κ}
    {x : α} (h : dictGet l k = some x) : (k, x) ∈ l := by
  unfold dictGet at h
  cases hf : l.reverse.find? (fun p => p.1 = k) with
  | none => rw [hf] at h; simp at h
  | some p =>
    rw [hf] at h
    have hpred := List.find?_some hf
    have hmem := List.mem_of_find?_eq_some hf
    have hk : p.1 = k := by simpa using hpred
    have hx : p.2 = x := by simpa using h
    have : p = (k, x) := by
      cases p with
      | mk a b => simp only [Prod.mk.injEq]; exact ⟨hk, hx⟩
    rw [this] at hmem
    exact List.mem_reverse.mp hmem

theorem strTruthy_eq_some {o : Option String} {s : String}
    (h : strTruthy o = some s) : s ≠ "" := by
  cases o with
  | none => simp [strTruthy] at h
  | some t =>
    simp only [strTruthy] at h
    by_cases ht : t = ""
    · simp [ht] at h
    · rw [if_neg ht] at h
      cases h
      exact ht

theorem coerceNonzero_eq_some {o : Option Int} {n : Int}
    (h : coerceNonzero o = some n) : o = some n ∧ n ≠ 0 := by
  cases o with
  | none => simp [coerceNonzero] at h
  | some m =>
    simp only [coerceNonzero] at h
    by_cases hm : m = 0
    · simp [hm] at h
    · rw [if_neg hm] at h
      cases h
      exact ⟨rfl, hm⟩

theorem coerceNonzero_cases (o : Option Int) :
    coerceNonzero o = none ∧ (o = none ∨ o = some 0) ∨ coerceNonzero o = o := by
  cases o with
  | none => exact Or.inl ⟨rfl, Or.inl rfl⟩
  | some m =>
    by_cases hm : m = 0
    · subst hm; exact Or.inl ⟨rfl, Or.inr rfl⟩
    · right
      simp only [coerceNonzero]
      rw [if_neg hm]

/-- Any metadata entry produced from one report line has a non-empty species
and stores the three coerced counts used by reconciliation only when they
are non-zero. -/
theorem load_metadata_line_invariant {r : RawAssemblyRecord} {m : AssemblyMeta}
    (h : load_metadata_line r = some m) :
    m.species ≠ ""
    ∧ (∀ n, m.total_sequence_length = some n → n ≠ 0)
    ∧ (∀ n, m.gc_count = some n → n ≠ 0)
    ∧ (∀ n, m.atgc_count = some n → n ≠ 0) := by
  simp only [load_metadata_line] at h
  cases ha : strTruthy (pyOrStr (pyOrStr r.accession r.assembly_accession) r.currentAccession) with
  | none => rw [ha] at h; simp at h
  | some acc =>
    rw [ha] at h
    cases hs : strTruthy (pyOrStr (pyOrStr r.organismName r.organism_name) r.taxonName) with
    | none => rw [hs] at h; simp at h
    | some sp =>
      rw [hs] at h
      simp only [Option.some.injEq] at h
      subst h
      refine ⟨strTruthy_eq_some hs, ?_, ?_, ?_⟩
      · intro n hn; exact (coerceNonzero_eq_some hn).2
      · intro n hn; exact (coerceNonzero_eq_some hn).2
      · intro n hn; exact (coerceNonzero_eq_some hn).2

/-- Every value reachable from the loaded metadata dict comes from some
report line. -/
theorem load_metadata_lookup {lines : List RawAssemblyRecord} {acc : String}
    {m : AssemblyMeta} (h : dictGet (load_metadata lines) acc = some m) :
    ∃ r ∈ lines, load_metadata_line r = some m := by
  have hmem := dictGet_eq_some_mem h
  unfold load_metadata at hmem
  rw [List.mem_map] at hmem
  obtain ⟨m', hm', heq⟩ := hmem
  have hm2 : m' = m := congrArg Prod.snd heq
  subst hm2
  exact List.mem_filterMap.mp hm'

/-- The reconciliation-relevant invariants of any successful metadata
lookup. -/
theorem metaLookup_invariant {lines : List RawAssemblyRecord} {acc : String}
    {m : AssemblyMeta} (h : dictGet (load_metadata lines) acc = some m) :
    m.species ≠ ""
    ∧ (∀ n, m.total_sequence_length = some n → n ≠ 0)
    ∧ (∀ n, m.gc_count = some n → n ≠ 0)
    ∧ (∀ n, m.atgc_count = some n → n ≠ 0) := by
  obtain ⟨r, _, hline⟩ := load_metadata_lookup h
  exact load_metadata_line_invariant hline

theorem count_G_add_count_C_le_length (l : List Char) :
    l.count 'G' + l.count 'C' ≤ l.length := by
  induction l with
  | nil => simp
  | cons c rest ih =>
    simp only [List.count_cons, List.length_cons, beq_iff_eq]
    split_ifs with h1 h2
    · subst h1; exact absurd h2 (by decide)
    all_goals omega

/-- Claim C6: the sequence parser skips header lines entirely, and over the
remaining stripped, uppercased lines the total length is the sum of line
lengths, the GC count is the number of G plus C characters, the ambiguous
count is the number of N characters, and GC count never exceeds length. -/
theorem parse_fasta_spec_counts (lines : List (List Char)) :
    (parse_fasta lines).total_len =
      ((nonHeaderLines lines).map (fun l => (fastaSeqLine l).length)).sum
    ∧ (parse_fasta lines).gc =
      ((nonHeaderLines lines).map
        (fun l => (fastaSeqLine l).count 'G' + (fastaSeqLine l).count 'C')).sum
    ∧ (parse_fasta lines).n_count =
      ((nonHeaderLines lines).map (fun l => (fastaSeqLine l).count 'N')).sum
    ∧ (parse_fasta lines).gc ≤ (parse_fasta lines).total_len := by
  induction lines with
  | nil => refine ⟨rfl, rfl, rfl, ?_⟩; simp [parse_fasta]
  | cons line rest ih =>
    obtain ⟨h1, h2, h3, h4⟩ := ih
    by_cases hhead : line.head? = some '>'
    · have hcode : parse_fasta (line :: rest) = parse_fasta rest := by
        simp [parse_fasta, hhead]
      have hspec : nonHeaderLines (line :: rest) = nonHeaderLines rest := by
        simp [nonHeaderLines, List.filter_cons, hhead]
      rw [hcode, hspec]
      exact ⟨h1, h2, h3, h4⟩
    · have hspec : nonHeaderLines (line :: rest) = line :: nonHeaderLines rest := by
        simp [nonHeaderLines, List.filter_cons, hhead]
      by_cases hempty : line = []
      · have hcode : parse_fasta (line :: rest) = parse_fasta rest := by
          simp [parse_fasta, hempty]
        have hline : fastaSeqLine line = [] := by
          subst hempty; rfl
        rw [hcode, hspec]
        simp only [List.map_cons, List.sum_cons, hline]
        exact ⟨by simpa using h1, by simpa using h2, by simpa using h3, h4⟩
      · have hcode : parse_fasta (line :: rest) =
            ⟨(fastaSeqLine line).length + (parse_fasta rest).total_len,
             ((fastaSeqLine line).count 'G' + (fastaSeqLine line).count 'C') +
               (parse_fasta rest).gc,
             (fastaSeqLine line).count 'N' + (parse_fasta rest).n_count⟩ := by
          simp [parse_fasta, hempty, hhead, fastaSeqLine]
        rw [hcode, hspec]
        simp only [List.map_cons, List.sum_cons]
        refine ⟨by rw [h1], by rw [h2], by rw [h3], ?_⟩
        have := count_G_add_count_C_le_length (fastaSeqLine line)
        omega

theorem pyRound_zero (n : Nat) : pyRound n 0 = 0 := by
  simp [pyRound]

theorem buildRecord_gc_content_pct (accession : String) (meta : Option AssemblyMeta)
    (curated : Option CurationEntry) (fc : FastaCounts) (gf : GffCounts) :
    (buildRecord accession meta curated fc gf).gc_content_pct =
      pyRound 2
        (match meta.bind AssemblyMeta.gc_count, meta.bind AssemblyMeta.atgc_count with
          | some g, some a =>
            if a = 0 then
              (if fc.total_len = 0 then 0 else (fc.gc : ℚ) / (fc.total_len : ℚ) * 100)
            else (g : ℚ) / (a : ℚ) * 100
          | some _, none =>
            (if fc.total_len = 0 then 0 else (fc.gc : ℚ) / (fc.total_len : ℚ) * 100)
          | none, _ =>
            (if fc.total_len = 0 then 0 else (fc.gc : ℚ) / (fc.total_len : ℚ) * 100)) := rfl

theorem buildRecord_genome_size_mb (accession : String) (meta : Option AssemblyMeta)
    (curated : Option CurationEntry) (fc : FastaCounts) (gf : GffCounts) :
    (buildRecord accession meta curated fc gf).genome_size_mb =
      pyRound 3 (if reconciled_length meta fc.total_len = 0 then 0
        else ((reconciled_length meta fc.total_len : ℚ)) / 1000000) := rfl

theorem buildRecord_density (accession : String) (meta : Option AssemblyMeta)
    (curated : Option CurationEntry) (fc : FastaCounts) (gf : GffCounts) :
    (buildRecord accession meta curated fc gf).is_elements_per_mb =
      pyRound 3
        (if (if reconciled_length meta fc.total_len = 0 then (0 : ℚ)
              else (reconciled_length meta fc.total_len : ℚ) / 1000000) = 0 then 0
          else (gf.is_elements : ℚ) /
            (if reconciled_length meta fc.total_len = 0 then (0 : ℚ)
              else (reconciled_length meta fc.total_len : ℚ) / 1000000)) := rfl

/-- Successful assembly decomposes into the two file picks and the record
builder. -/
theorem assemble_metrics_eq_some {dir : AssemblyDir} {mm : List (String × AssemblyMeta)}
    {cur : List (String × CurationEntry)} {rec : GenomeMetricRecord}
    (hrec : assemble_metrics dir mm cur = some rec) :
    ∃ fa gf, pick_file dir.fnaFiles fastaTokens = some fa
      ∧ pick_file dir.gffFiles gffTokens = some gf
      ∧ rec = buildRecord dir.dname (dictGet mm dir.dname) (dictGet cur dir.dname)
          (parse_fasta fa.lines) (parse_gff gf.lines) := by
  simp only [assemble_metrics] at hrec
  cases hfa : pick_file dir.fnaFiles fastaTokens with
  | none => rw [hfa] at hrec; simp at hrec
  | some fa =>
    rw [hfa] at hrec
    cases hgf : pick_file dir.gffFiles gffTokens with
    | none => rw [hgf] at hrec; simp at hrec
    | some gf =>
      rw [hgf] at hrec
      simp only [Option.some.injEq] at hrec
      exact ⟨fa, gf, rfl, rfl, hrec.symm⟩

/-- The pseudogene contribution of one annotation row, stated per the
specification: a `CDS` row with a truthy `pseudogene` attribute or a
`pseudo` key contributes one, and a `pseudogene` feature row contributes
one, additively. -/
def pseudoRowContribution (line : List Char) : Nat :=
  if line = [] ∨ line.head? = some '#' then 0
  else
    let parts := splitOnChar '\t' (rstripNewline line)
    if parts.length < 9 then 0
    else
      let feature_type := parts.getD 2 []
      let attrs := parse_gff_attributes (parts.getD 8 [])
      (if feature_type = "CDS".toList ∧
          (dictHas attrs "pseudo".toList = true ∨
           pyTruthyVal (dictGet attrs "pseudogene".toList) = true)
        then 1 else 0) +
      (if feature_type = "pseudogene".toList then 1 else 0)

/-- A file with one pseudogene-flagged CDS row and one independent
pseudogene feature row. -/
def gffPseudoExample : List (List Char) :=
  ["seq1\tsrc\tCDS\t1\t10\t.\t+\t0\tID=c1;pseudogene=true".toList,
   "seq1\tsrc\tpseudogene\t20\t30\t.\t+\t.\tID=p1".toList]

/-- Claim C3: the pseudogene count is additive over the two independent
per-row triggers, and the two-row example yields a count of 2. -/
theorem parse_gff_pseudogene_additive :
    (∀ lines : List (List Char),
      (parse_gff lines).pseudogenes = (lines.map pseudoRowContribution).sum)
    ∧ (parse_gff gffPseudoExample).pseudogenes = 2 := by
  constructor
  · intro lines
    induction lines with
    | nil => rfl
    | cons line rest ih =>
      simp only [List.map_cons, List.sum_cons]
      by_cases hskip : line = [] ∨ line.head? = some '#'
      · have hcode : (parse_gff (line :: rest)).pseudogenes = (parse_gff rest).pseudogenes := by
          simp [parse_gff, hskip]
        have hcontrib : pseudoRowContribution line = 0 := by
          simp [pseudoRowContribution, hskip]
        rw [hcode, hcontrib, ih]
        omega
      · by_cases hlen : (splitOnChar '\t' (rstripNewline line)).length < 9
        · have hcode : (parse_gff (line :: rest)).pseudogenes = (parse_gff rest).pseudogenes := by
            simp [parse_gff, hskip, hlen]
          have hcontrib : pseudoRowContribution line = 0 := by
            simp [pseudoRowContribution, hskip, hlen]
          rw [hcode, hcontrib, ih]
          omega
        · have hcode : (parse_gff (line :: rest)).pseudogenes =
              pseudoRowContribution line + (parse_gff rest).pseudogenes := by
            simp [parse_gff, pseudoRowContribution, hskip, hlen]
          rw [hcode, ih]
  · decide
example : (parse_fasta ["> header".toList, "acgGCn".toList]).gc = 4 := by decide

theorem list_any_congr {α : Type} {l : List α} {f g : α → Bool}
    (h : ∀ a ∈ l, f a = g a) : l.any f = l.any g := by
  induction l with
  | nil => rfl
  | cons a t ih =>
    simp only [List.any_cons]
    rw [h a (by simp), ih (fun b hb => h b (by simp [hb]))]

/-- The mobile-element classifier exactly as claim C4 words it: the keyword
test is case-insensitive containment of the keyword in the value. -/
def isIsElementClaim (feature_type : List Char) (attrs : List (List Char × List Char)) : Bool :=
  decide (feature_type ∈ mobileFeatureTypes) ||
  isAttrKeys.any (fun key =>
    match dictGet attrs key with
    | some value =>
      IS_KEYWORDS.any
        (fun word => listInfixOf (word.map Char.toLower) (value.map Char.toLower)) ||
      isRegexSearch value
    | none => false)

/-- The classifier as the amended claim words it: the lowercased value must
contain the keyword exactly as written in the table, so the capitalised
`IS element` keyword can never match. -/
def isIsElementAmended (feature_type : List Char) (attrs : List (List Char × List Char)) : Bool :=
  decide (feature_type ∈ mobileFeatureTypes) ||
  isAttrKeys.any (fun key =>
    match dictGet attrs key with
    | some value =>
      IS_KEYWORDS.any (fun word => listInfixOf word (value.map Char.toLower)) ||
      isRegexSearch value
    | none => false)

/-- Counterexample to claim C4: the attribute value `IS element` contains
the keyword `IS element` as a (case-insensitive, here even literal)
substring, so the claim classifies the row as mobile, but the code
lowercases the value before the case-sensitive substring test and returns
false. -/
theorem is_is_element_keyword_counterexample :
    isIsElementClaim "gene".toList [("product".toList, "IS element".toList)] = true
    ∧ is_is_element "gene".toList [("product".toList, "IS element".toList)] = false := by
  exact ⟨by decide, by decide⟩

/-- Claim C4 as amended: the classifier returns true iff the feature type is
in the mobile set, or some inspected attribute value lowercased contains one
of the keywords as literally written (so `IS element` never matches), or the
raw value matches the case-insensitive whole-word `IS`-digits pattern; the
spec's positive example is classified mobile and `ISland view` does not
match the digit pattern. -/
theorem is_is_element_amended_spec :
    (∀ (feature_type : List Char) (attrs : List (List Char × List Char)),
      is_is_element feature_type attrs = isIsElementAmended feature_type attrs)
    ∧ is_is_element "gene".toList
        [("product".toList, "transposase IS30 family".toList)] = true
    ∧ isRegexSearch "ISland view".toList = false := by
  refine ⟨?_, by decide, by decide⟩
  intro feature_type attrs
  unfold is_is_element isIsElementAmended
  by_cases hft : feature_type ∈ mobileFeatureTypes
  · simp [hft]
  · simp only [if_neg hft, decide_eq_false hft, Bool.false_or]
    refine list_any_congr ?_
    intro key _
    cases hv : dictGet attrs key with
    | none => simp
    | some value =>
      cases value with
      | nil =>
        simp only [Option.getD_some, if_pos rfl]
        have : (IS_KEYWORDS.any fun word =>
            listInfixOf word (List.map Char.toLower [])) = false := by decide
        rw [this]
        decide
      | cons c cs =>
        have hne : (c :: cs : List Char) ≠ [] := by simp
        simp only [Option.getD_some, if_neg hne]
        cases hkw : (IS_KEYWORDS.any fun word =>
            listInfixOf word (List.map Char.toLower (c :: cs))) with
        | true => simp
        | false => simp
example : is_is_element "gene".toList [("product".toList, "transposase IS30 family".toList)] = true := by decide
example : is_is_element "gene".toList [("product".toList, "IS element".toList)] = false := by decide
example : isRegexSearch "ISland view".toList = false := by decide
example : isRegexSearch "has IS30 here".toList = true := by decide

/-- Claim C1: when the loaded metadata provides both a GC base count and an
A+T+G+C base count, the record's GC-content percent is computed from those
two counts (to the record's 2-decimal rounding); otherwise it is computed
from the locally parsed counts, and a zero local total length yields 0
rather than an error. -/
theorem gc_percent_reconciliation
    (lines : List RawAssemblyRecord) (dir : AssemblyDir)
    (cur : List (String × CurationEntry)) (fa : NamedFile) (rec : GenomeMetricRecord)
    (hfa : pick_file dir.fnaFiles fastaTokens = some fa)
    (hrec : assemble_metrics dir (load_metadata lines) cur = some rec) :
    (∀ g a,
      (dictGet (load_metadata lines) dir.dname).bind AssemblyMeta.gc_count = some g →
      (dictGet (load_metadata lines) dir.dname).bind AssemblyMeta.atgc_count = some a →
      rec.gc_content_pct = pyRound 2 ((g : ℚ) / (a : ℚ) * 100))
    ∧ (((dictGet (load_metadata lines) dir.dname).bind AssemblyMeta.gc_count = none ∨
        (dictGet (load_metadata lines) dir.dname).bind AssemblyMeta.atgc_count = none) →
        (parse_fasta fa.lines).total_len ≠ 0 →
        rec.gc_content_pct =
          pyRound 2 (((parse_fasta fa.lines).gc : ℚ) /
            ((parse_fasta fa.lines).total_len : ℚ) * 100))
    ∧ (((dictGet (load_metadata lines) dir.dname).bind AssemblyMeta.gc_count = none ∨
        (dictGet (load_metadata lines) dir.dname).bind AssemblyMeta.atgc_count = none) →
        (parse_fasta fa.lines).total_len = 0 → rec.gc_content_pct = 0) := by
  obtain ⟨fa', gf, hfa', hgf, hb⟩ := assemble_metrics_eq_some hrec
  have hfa2 : fa' = fa := by rw [hfa] at hfa'; exact (Option.some.injEq _ _ ▸ hfa').symm
  subst hfa2
  subst hb
  rw [buildRecord_gc_content_pct]
  cases hm : dictGet (load_metadata lines) dir.dname with
  | none =>
    refine ⟨?_, ?_, ?_⟩
    · intro g a hg ha
      simp at hg
    · intro _ hTL
      simp only [Option.none_bind]
      rw [if_neg hTL]
    · intro _ hTL
      simp only [Option.none_bind]
      rw [if_pos hTL, pyRound_zero]
  | some m =>
    have hinv := metaLookup_invariant hm
    refine ⟨?_, ?_, ?_⟩
    · intro g a hg ha
      simp only [Option.some_bind] at hg ha
      simp only [Option.some_bind, hg, ha]
      rw [if_neg (hinv.2.2.2 a ha)]
    · intro hnone hTL
      simp only [Option.some_bind] at hnone
      simp only [Option.some_bind]
      rcases hnone with hg | ha
      · simp only [hg]
        rw [if_neg hTL]
      · simp only [ha]
        cases hgc : m.gc_count with
        | none => rw [if_neg hTL]
        | some g => rw [if_neg hTL]
    · intro hnone hTL
      simp only [Option.some_bind] at hnone
      simp only [Option.some_bind]
      rcases hnone with hg | ha
      · simp only [hg]
        rw [if_pos hTL, pyRound_zero]
      · simp only [ha]
        cases hgc : m.gc_count with
        | none => rw [if_pos hTL, pyRound_zero]
        | some g => rw [if_pos hTL, pyRound_zero]

/-- Concrete metadata line for the GC-reconciliation scenario of the spec:
report GC = 40 and ATGC = 100. -/
def c1RawEx : RawAssemblyRecord :=
  { accession := some "GCF_C1"
    assembly_accession := none
    currentAccession := none
    organismName := some "Test species"
    organism_name := none
    taxonName := none
    tax_id := none
    taxId := none
    taxonTaxId := none
    assembly_level := none
    assemblyLevel := none
    release_date := none
    releaseDate := none
    strain_infraspecific := none
    strainInfraspecific := none
    bestAniOrganismName := none
    totalSequenceLength := none
    gcCount := some 40
    atgcCount := some 100
    gcPercent := none
    proteinCoding := none
    geneCountTotal := none
    pseudogeneCount := none }

/-- A sequence file with local total length 50 and local GC count 10. -/
def c1FastaFile : NamedFile :=
  ⟨"genomic.fna".toList,
   ["GGGGGGGGGGAAAAAAAAAAAAAAAAAAAAAAAAAAAAAAAAAAAAAAAA".toList]⟩

def c1GffFile : NamedFile := ⟨"genomic.gff".toList, []⟩

def c1Dir : AssemblyDir := ⟨"GCF_C1", [c1FastaFile], [c1GffFile]⟩

def c1Rec : GenomeMetricRecord :=
  (assemble_metrics c1Dir (load_metadata [c1RawEx]) []).getD default

/-- Witness for C1 at the spec's scenario: report GC=40/ATGC=100 with local
gc=10/total=50 yields a GC percent of 40, not 20. -/
theorem gc_percent_reconciliation_witness :
    c1Rec.gc_content_pct = pyRound 2 ((40 : ℚ) / (100 : ℚ) * 100)
    ∧ c1Rec.gc_content_pct = 40 := by
  have h := (gc_percent_reconciliation [c1RawEx] c1Dir [] c1FastaFile c1Rec
    (by decide) rfl).1 40 100 (by decide) (by decide)
  refine ⟨h, ?_⟩
  rw [h]
  simp only [pyRound, round_eq]
  norm_num

theorem reconciled_length_some {m : AssemblyMeta} {L : Int}
    (hL : m.total_sequence_length = some L) (hne : L ≠ 0) (t : Nat) :
    reconciled_length (some m) t = L := by
  simp only [reconciled_length, Option.some_bind, hL]
  rw [if_neg hne]

theorem reconciled_length_meta_none {m : AssemblyMeta}
    (hL : m.total_sequence_length = none) (t : Nat) :
    reconciled_length (some m) t = (t : Int) := by
  simp only [reconciled_length, Option.some_bind, hL]

theorem reconciled_length_none (t : Nat) :
    reconciled_length none t = (t : Int) := rfl

/-- Claim C2: when the loaded metadata provides a total sequence length the
record's genome size in Mb is that length over 1,000,000 (3-decimal
rounding), regardless of the locally parsed length; the local length is used
only when the report has none, and a missing-and-zero reconciled length
yields 0. -/
theorem genome_size_precedence
    (lines : List RawAssemblyRecord) (dir : AssemblyDir)
    (cur : List (String × CurationEntry)) (fa : NamedFile) (rec : GenomeMetricRecord)
    (hfa : pick_file dir.fnaFiles fastaTokens = some fa)
    (hrec : assemble_metrics dir (load_metadata lines) cur = some rec) :
    (∀ L, (dictGet (load_metadata lines) dir.dname).bind
        AssemblyMeta.total_sequence_length = some L →
      rec.genome_size_mb = pyRound 3 ((L : ℚ) / 1000000))
    ∧ ((dictGet (load_metadata lines) dir.dname).bind
        AssemblyMeta.total_sequence_length = none →
      rec.genome_size_mb = pyRound 3 (((parse_fasta fa.lines).total_len : ℚ) / 1000000))
    ∧ ((dictGet (load_metadata lines) dir.dname).bind
        AssemblyMeta.total_sequence_length = none →
      (parse_fasta fa.lines).total_len = 0 → rec.genome_size_mb = 0) := by
  obtain ⟨fa', gf, hfa', hgf, hb⟩ := assemble_metrics_eq_some hrec
  have hfa2 : fa' = fa := by rw [hfa] at hfa'; exact (Option.some.injEq _ _ ▸ hfa').symm
  subst hfa2
  subst hb
  rw [buildRecord_genome_size_mb]
  have hlocal : ∀ t : Nat,
      pyRound 3 (if (t : Int) = 0 then 0 else (((t : Int) : ℚ)) / 1000000) =
        pyRound 3 ((t : ℚ) / 1000000) := by
    intro t
    by_cases ht : t = 0
    · subst ht; norm_num
    · rw [if_neg (by exact_mod_cast ht)]
      norm_num
  cases hm : dictGet (load_metadata lines) dir.dname with
  | none =>
    refine ⟨?_, ?_, ?_⟩
    · intro L hL
      simp at hL
    · intro _
      rw [reconciled_length_none]
      exact hlocal _
    · intro _ hTL
      rw [reconciled_length_none, hTL]
      norm_num
      exact pyRound_zero 3
  | some m =>
    have hinv := metaLookup_invariant hm
    refine ⟨?_, ?_, ?_⟩
    · intro L hL
      simp only [Option.some_bind] at hL
      rw [reconciled_length_some hL (hinv.2.1 L hL) _]
      rw [if_neg (hinv.2.1 L hL)]
    · intro hL
      simp only [Option.some_bind] at hL
      rw [reconciled_length_meta_none hL]
      exact hlocal _
    · intro hL hTL
      simp only [Option.some_bind] at hL
      rw [reconciled_length_meta_none hL, hTL]
      norm_num
      exact pyRound_zero 3

/-- Concrete metadata line whose report total length (2,000,000) disagrees
with the local parsed length (4). -/
def c2RawEx : RawAssemblyRecord :=
  { accession := some "GCF_C2"
    assembly_accession := none
    currentAccession := none
    organismName := some "Test species"
    organism_name := none
    taxonName := none
    tax_id := none
    taxId := none
    taxonTaxId := none
    assembly_level := none
    assemblyLevel := none
    release_date := none
    releaseDate := none
    strain_infraspecific := none
    strainInfraspecific := none
    bestAniOrganismName := none
    totalSequenceLength := some 2000000
    gcCount := none
    atgcCount := none
    gcPercent := none
    proteinCoding := none
    geneCountTotal := none
    pseudogeneCount := none }

def c2FastaFile : NamedFile := ⟨"genomic.fna".toList, ["ACGT".toList]⟩

def c2GffFile : NamedFile := ⟨"genomic.gff".toList, []⟩

def c2Dir : AssemblyDir := ⟨"GCF_C2", [c2FastaFile], [c2GffFile]⟩

def c2Rec : GenomeMetricRecord :=
  (assemble_metrics c2Dir (load_metadata [c2RawEx]) []).getD default

/-- Witness for C2: report length 2,000,000 with a disagreeing local length
of 4 yields a genome size of exactly 2 Mb. -/
theorem genome_size_precedence_witness :
    c2Rec.genome_size_mb = pyRound 3 ((2000000 : ℚ) / 1000000)
    ∧ c2Rec.genome_size_mb = 2 := by
  have h := (genome_size_precedence [c2RawEx] c2Dir [] c2FastaFile c2Rec
    (by decide) rfl).1 2000000 (by decide)
  refine ⟨h, ?_⟩
  rw [h]
  simp only [pyRound, round_eq]
  norm_num

/-- Claim C10: when the loaded metadata has no entry for the directory-name
accession (or, hypothetically, an entry with an empty species, which the
loader never produces), the emitted record's species is the accession itself
and every metadata-derived field is `none`. -/
theorem missing_metadata_defaults
    (lines : List RawAssemblyRecord) (dir : AssemblyDir)
    (cur : List (String × CurationEntry)) (rec : GenomeMetricRecord)
    (hrec : assemble_metrics dir (load_metadata lines) cur = some rec)
    (hmeta : dictGet (load_metadata lines) dir.dname = none ∨
      ∃ m, dictGet (load_metadata lines) dir.dname = some m ∧ m.species = "") :
    rec.species = dir.dname ∧ rec.taxonomy_id = none ∧ rec.assembly_level = none
    ∧ rec.release_date = none ∧ rec.strain = none ∧ rec.species_ani = none := by
  obtain ⟨fa, gf, hfa, hgf, hb⟩ := assemble_metrics_eq_some hrec
  rcases hmeta with hm | ⟨m, hm, hsp⟩
  · subst hb
    rw [hm]
    exact ⟨rfl, rfl, rfl, rfl, rfl, rfl⟩
  · exact absurd hsp (metaLookup_invariant hm).1

def c10Dir : AssemblyDir :=
  ⟨"GCF_C10", [⟨"genomic.fna".toList, []⟩], [⟨"genomic.gff".toList, []⟩]⟩

def c10Rec : GenomeMetricRecord :=
  (assemble_metrics c10Dir (load_metadata []) []).getD default

/-- Witness for C10 at an empty metadata report. -/
theorem missing_metadata_defaults_witness :
    c10Rec.species = "GCF_C10" ∧ c10Rec.taxonomy_id = none
    ∧ c10Rec.assembly_level = none ∧ c10Rec.release_date = none
    ∧ c10Rec.strain = none ∧ c10Rec.species_ani = none :=
  missing_metadata_defaults [] c10Dir [] c10Rec rfl (Or.inl (by decide))

/-- Claim C5: the mobile-element density is the element count divided by the
genome size in megabases when the reconciled genome length is non-zero, and
0 when it is zero — the (total) function never fails. -/
theorem is_elements_density_guard
    (dir : AssemblyDir) (mm : List (String × AssemblyMeta))
    (cur : List (String × CurationEntry)) (fa gf : NamedFile) (rec : GenomeMetricRecord)
    (hfa : pick_file dir.fnaFiles fastaTokens = some fa)
    (hgf : pick_file dir.gffFiles gffTokens = some gf)
    (hrec : assemble_metrics dir mm cur = some rec) :
    (reconciled_length (dictGet mm dir.dname) (parse_fasta fa.lines).total_len = 0 →
      rec.is_elements_per_mb = 0)
    ∧ (reconciled_length (dictGet mm dir.dname) (parse_fasta fa.lines).total_len ≠ 0 →
      rec.is_elements_per_mb = pyRound 3 (((parse_gff gf.lines).is_elements : ℚ) /
        ((reconciled_length (dictGet mm dir.dname) (parse_fasta fa.lines).total_len : ℚ)
          / 1000000)))
    ∧ rec.is_elements = (parse_gff gf.lines).is_elements := by
  obtain ⟨fa', gf', hfa', hgf', hb⟩ := assemble_metrics_eq_some hrec
  have hfa2 : fa = fa' := by rw [hfa] at hfa'; exact Option.some.injEq _ _ ▸ hfa'
  have hgf2 : gf = gf' := by rw [hgf] at hgf'; exact Option.some.injEq _ _ ▸ hgf'
  subst hfa2
  subst hgf2
  subst hb
  refine ⟨?_, ?_, rfl⟩
  · intro hL
    rw [buildRecord_density, hL]
    simp [pyRound_zero]
  · intro hL
    have hdiv : ((reconciled_length (dictGet mm dir.dname)
        (parse_fasta fa.lines).total_len : ℚ)) / 1000000 ≠ 0 :=
      div_ne_zero (Int.cast_ne_zero.mpr hL) (by norm_num)
    rw [buildRecord_density, if_neg hL, if_neg hdiv]

def c5FastaFile : NamedFile := ⟨"genomic.fna".toList, []⟩

/-- Five mobile-element feature rows. -/
def c5GffFile : NamedFile :=
  ⟨"genomic.gff".toList,
   ["c\ts\tmobile_element\t1\t2\t.\t+\t.\tID=m1".toList,
    "c\ts\tmobile_element\t3\t4\t.\t+\t.\tID=m2".toList,
    "c\ts\tmobile_element\t5\t6\t.\t+\t.\tID=m3".toList,
    "c\ts\tmobile_element\t7\t8\t.\t+\t.\tID=m4".toList,
    "c\ts\tmobile_element\t9\t10\t.\t+\t.\tID=m5".toList]⟩

def c5Dir : AssemblyDir := ⟨"GCF_C5", [c5FastaFile], [c5GffFile]⟩

def c5Rec : GenomeMetricRecord :=
  (assemble_metrics c5Dir [] []).getD default

/-- Witness for C5: a genome of size 0 Mb with 5 mobile elements yields a
density of 0 rather than an error. -/
theorem is_elements_density_guard_witness :
    c5Rec.is_elements = 5 ∧ c5Rec.is_elements_per_mb = 0 := by
  have h := is_elements_density_guard c5Dir [] [] c5FastaFile c5GffFile c5Rec
    (by decide) (by decide) rfl
  exact ⟨by rw [h.2.2]; decide, h.1 (by decide)⟩

/-- The storage discipline claim C7 asserts for a numeric field: stored
missing exactly when the source value is absent or zero, stored as itself
otherwise. -/
def storedOnlyNonzero (raw stored : Option Int) : Prop :=
  (stored = none ↔ raw = none ∨ raw = some 0)
  ∧ ∀ n, stored = some n ↔ raw = some n ∧ n ≠ 0

theorem coerceNonzero_storedOnlyNonzero (o : Option Int) :
    storedOnlyNonzero o (coerceNonzero o) := by
  constructor
  · cases o with
    | none => simp [coerceNonzero]
    | some m =>
      by_cases hm : m = 0
      · subst hm; simp [coerceNonzero]
      · simp only [coerceNonzero]
        rw [if_neg hm]
        simp [hm]
  · intro n
    cases o with
    | none => simp [coerceNonzero]
    | some m =>
      by_cases hm : m = 0
      · subst hm
        simp [coerceNonzero]
        omega
      · simp only [coerceNonzero]
        rw [if_neg hm]
        constructor
        · intro h
          cases h
          exact ⟨rfl, hm⟩
        · intro h
          rw [(Option.some.injEq _ _ ▸ h.1 : m = n)]

/-- The numeric fields of a loaded metadata record, destructured from one
successful line load. -/
theorem load_metadata_line_fields {r : RawAssemblyRecord} {m : AssemblyMeta}
    (h : load_metadata_line r = some m) :
    m.total_sequence_length = coerceNonzero r.totalSequenceLength
    ∧ m.gc_count = coerceNonzero r.gcCount
    ∧ m.atgc_count = coerceNonzero r.atgcCount
    ∧ m.total_cdss = coerceNonzero (pyOrInt r.proteinCoding r.geneCountTotal)
    ∧ m.pseudogenes = coerceNonzero r.pseudogeneCount
    ∧ m.gc_percent = r.gcPercent := by
  simp only [load_metadata_line] at h
  cases ha : strTruthy (pyOrStr (pyOrStr r.accession r.assembly_accession) r.currentAccession) with
  | none => rw [ha] at h; simp at h
  | some acc =>
    rw [ha] at h
    cases hs : strTruthy (pyOrStr (pyOrStr r.organismName r.organism_name) r.taxonName) with
    | none => rw [hs] at h; simp at h
    | some sp =>
      rw [hs] at h
      simp only [Option.some.injEq] at h
      subst h
      exact ⟨rfl, rfl, rfl, rfl, rfl, rfl⟩

/-- Claim C7 as amended: for every successfully loaded report line the five
integer count fields follow the present-and-non-zero storage discipline
(absent or zero source values become missing), while the GC-percent field is
stored verbatim whenever present — including a reported zero. -/
theorem load_metadata_numeric_coercion
    (r : RawAssemblyRecord) (m : AssemblyMeta)
    (h : load_metadata_line r = some m) :
    storedOnlyNonzero r.totalSequenceLength m.total_sequence_length
    ∧ storedOnlyNonzero r.gcCount m.gc_count
    ∧ storedOnlyNonzero r.atgcCount m.atgc_count
    ∧ storedOnlyNonzero (pyOrInt r.proteinCoding r.geneCountTotal) m.total_cdss
    ∧ storedOnlyNonzero r.pseudogeneCount m.pseudogenes
    ∧ m.gc_percent = r.gcPercent := by
  obtain ⟨h1, h2, h3, h4, h5, h6⟩ := load_metadata_line_fields h
  rw [h1, h2, h3, h4, h5]
  exact ⟨coerceNonzero_storedOnlyNonzero _, coerceNonzero_storedOnlyNonzero _,
    coerceNonzero_storedOnlyNonzero _, coerceNonzero_storedOnlyNonzero _,
    coerceNonzero_storedOnlyNonzero _, h6⟩

/-- A report line whose GC percent is reported as zero. -/
def c7RawEx : RawAssemblyRecord :=
  { accession := some "GCF_C7"
    assembly_accession := none
    currentAccession := none
    organismName := some "Test species"
    organism_name := none
    taxonName := none
    tax_id := none
    taxId := none
    taxonTaxId := none
    assembly_level := none
    assemblyLevel := none
    release_date := none
    releaseDate := none
    strain_infraspecific := none
    strainInfraspecific := none
    bestAniOrganismName := none
    totalSequenceLength := some 4000000
    gcCount := none
    atgcCount := none
    gcPercent := some 0
    proteinCoding := none
    geneCountTotal := none
    pseudogeneCount := none }

/-- Counterexample to claim C7 as stated: a GC percent reported as zero is
stored as `some 0`, not as missing, because the loader guards that field
with `is not None` instead of truthiness. -/
theorem load_metadata_gc_percent_zero_counterexample :
    (load_metadata_line c7RawEx).map AssemblyMeta.gc_percent = some (some 0)
    ∧ (load_metadata_line c7RawEx).map AssemblyMeta.gc_percent ≠ some none := by
  exact ⟨rfl, by decide⟩

def c7Meta : AssemblyMeta := (load_metadata_line c7RawEx).getD default

/-- Witness for the amended C7 at the concrete zero-GC-percent line: the
integer length field follows the non-zero discipline and the GC percent is
stored verbatim. -/
theorem load_metadata_numeric_coercion_witness :
    c7Meta.gc_percent = c7RawEx.gcPercent
    ∧ (c7Meta.total_sequence_length = some 4000000 ↔
        c7RawEx.totalSequenceLength = some 4000000 ∧ (4000000 : Int) ≠ 0) := by
  have h := load_metadata_numeric_coercion c7RawEx c7Meta rfl
  exact ⟨h.2.2.2.2.2, h.1.2 4000000⟩

theorem pick_file_nil (tokens : List (List Char)) : pick_file [] tokens = none := by
  unfold pick_file
  have h : (tokens.filterMap fun token =>
      ([] : List NamedFile).find? fun p => listInfixOf token p.fname) = [] := by
    rw [List.filterMap_eq_nil_iff]
    intro a _
    rfl
  rw [h]
  rfl

/-- The produced-record list of the batch is the per-row `filterMap`. -/
theorem runBatch_fst (env : String → Dataset) (cur : List (String × CurationEntry))
    (rows : List RefRow) :
    (runBatch env cur rows).1 = rows.filterMap (processRow env cur) := by
  simp only [runBatch]
  by_cases h : rows = []
  · rw [if_pos h, h]
    rfl
  · rw [if_neg h]
    by_cases h2 : rows.filterMap (processRow env cur) = []
    · rw [if_pos h2, h2]
    · rw [if_neg h2]

/-- Claim C9: an assembly directory lacking any recognized sequence file or
any recognized annotation file yields no record; a skipped row leaves the
rest of the batch unchanged; and the batch exit status is 1 exactly when
zero records result. -/
theorem batch_skip_and_failure :
    (∀ (dir : AssemblyDir) (mm : List (String × AssemblyMeta))
        (cur : List (String × CurationEntry)),
      dir.fnaFiles = [] ∨ dir.gffFiles = [] → assemble_metrics dir mm cur = none)
    ∧ (∀ (env : String → Dataset) (cur : List (String × CurationEntry))
        (pre : List RefRow) (r : RefRow) (post : List RefRow),
      processRow env cur r = none →
      (runBatch env cur (pre ++ r :: post)).1 = (runBatch env cur (pre ++ post)).1)
    ∧ (∀ (env : String → Dataset) (cur : List (String × CurationEntry))
        (rs : List RefRow),
      (runBatch env cur rs).2 = 1 ↔ (runBatch env cur rs).1 = []) := by
  refine ⟨?_, ?_, ?_⟩
  · intro dir mm cur h
    rcases h with h | h
    · simp only [assemble_metrics, h, pick_file_nil]
    · simp only [assemble_metrics, h, pick_file_nil]
      cases pick_file dir.fnaFiles fastaTokens with
      | none => rfl
      | some fa => rfl
  · intro env cur pre r post h
    rw [runBatch_fst, runBatch_fst]
    simp [List.filterMap_append, List.filterMap_cons, h]
  · intro env cur rs
    simp only [runBatch]
    by_cases h : rs = []
    · rw [if_pos h]
      simp
    · rw [if_neg h]
      by_cases h2 : rs.filterMap (processRow env cur) = []
      · rw [if_pos h2]
        simp [h2]
      · rw [if_neg h2]
        simp [h2]

def c9DirW : AssemblyDir := ⟨"GCF_C9", [], [⟨"genomic.gff".toList, []⟩]⟩

def c9EnvW : String → Dataset := fun _ => ⟨[], []⟩

def c9RowW : RefRow := ⟨none, none, none, none, none, none⟩

/-- Witness for C9: a directory with no sequence file produces no record, a
skipped reference row leaves the batch output unchanged, and the empty batch
reports failure exactly because it is empty. -/
theorem batch_skip_and_failure_witness :
    assemble_metrics c9DirW [] [] = none
    ∧ (runBatch c9EnvW [] [c9RowW]).1 = (runBatch c9EnvW [] []).1
    ∧ ((runBatch c9EnvW [] []).2 = 1 ↔ (runBatch c9EnvW [] []).1 = []) := by
  obtain ⟨p1, p2, p3⟩ := batch_skip_and_failure
  exact ⟨p1 c9DirW [] [] (Or.inl rfl), p2 c9EnvW [] [] c9RowW [] rfl, p3 c9EnvW [] []⟩

theorem dictGet_map_self (v : String → String) (l : List String) (k : String)
    (hk : k ∈ l) :
    dictGet (l.map (fun fn => (fn, v fn))) k = some (v k) := by
  unfold dictGet
  cases hf : (l.map (fun fn => (fn, v fn))).reverse.find? (fun p => p.1 = k) with
  | none =>
    rw [List.find?_eq_none] at hf
    have hmem : ((k, v k) : String × String) ∈ (l.map (fun fn => (fn, v fn))).reverse :=
      List.mem_reverse.mpr (List.mem_map.mpr ⟨k, hk, rfl⟩)
    have := hf _ hmem
    simp at this
  | some p =>
    have hpred := List.find?_some hf
    have hmem := List.mem_of_find?_eq_some hf
    rw [List.mem_reverse, List.mem_map] at hmem
    obtain ⟨fn, _, hp⟩ := hmem
    have hk1 : p.1 = k := by simpa using hpred
    have hfn : fn = k := by rw [← hp] at hk1; exact hk1
    subst hfn
    rw [← hp]
    simp

theorem dictGet_serializeRow (fns : List String) (row : List (String × String))
    (k : String) (hk : k ∈ fns) :
    dictGet (serializeRow fns row) k = some ((dictGet row k).getD "") :=
  dictGet_map_self (fun fn => (dictGet row fn).getD "") fns k hk

theorem dictGet_newCurationRow_acc (acc sp : String) :
    dictGet (newCurationRow acc sp) "assembly_accession" = some acc := by
  simp [dictGet, newCurationRow, List.find?]

theorem existingKeys_append (a b : List (List (String × String))) :
    existingKeys (a ++ b) = existingKeys a ++ existingKeys b := by
  simp [existingKeys, List.filterMap_append]

theorem existingKeys_mem {rows : List (List (String × String))}
    {q : List (String × String)} (hq : q ∈ rows) {acc : String}
    (hacc : (dictGet q "assembly_accession").getD "" = acc)
    (htrim : pyStripStr acc = acc) (hne : acc ≠ "") :
    acc ∈ existingKeys rows := by
  simp only [existingKeys, List.mem_filterMap]
  refine ⟨q, hq, ?_⟩
  simp only [hacc, htrim]
  rw [if_neg hne]

theorem computeNewRows_mem_of {existing : List String} {rows : List MetricRowIn}
    {row : MetricRowIn} {acc : String} (hrow : row ∈ rows)
    (hacc : row.assembly_accession = some acc) (hne : ¬(acc = "" ∨ acc ∈ existing)) :
    newCurationRow acc (row.species.getD "") ∈ computeNewRows existing rows := by
  simp only [computeNewRows, List.mem_filterMap]
  refine ⟨row, hrow, ?_⟩
  simp only [hacc]
  rw [if_neg hne]

theorem computeNewRows_mem {existing : List String} {rows : List MetricRowIn}
    {q : List (String × String)} (hq : q ∈ computeNewRows existing rows) :
    ∃ row ∈ rows, ∃ acc, row.assembly_accession = some acc
      ∧ ¬(acc = "" ∨ acc ∈ existing)
      ∧ q = newCurationRow acc (row.species.getD "") := by
  simp only [computeNewRows, List.mem_filterMap] at hq
  obtain ⟨row, hrow, hf⟩ := hq
  cases ha : row.assembly_accession with
  | none => rw [ha] at hf; simp at hf
  | some acc =>
    simp only [ha] at hf
    by_cases hc : acc = "" ∨ acc ∈ existing
    · rw [if_pos hc] at hf; simp at hf
    · rw [if_neg hc] at hf
      refine ⟨row, hrow, acc, ha, hc, ?_⟩
      exact (Option.some.injEq _ _ ▸ hf).symm

/-- No record is kept when every record's accession is empty, absent, or
already keyed. -/
theorem computeNewRows_eq_nil {existing : List String} {rows : List MetricRowIn}
    (h : ∀ row ∈ rows, ∀ acc, row.assembly_accession = some acc →
      acc = "" ∨ acc ∈ existing) :
    computeNewRows existing rows = [] := by
  simp only [computeNewRows]
  rw [List.filterMap_eq_nil_iff]
  intro row hrow
  cases ha : row.assembly_accession with
  | none => rfl
  | some acc =>
    simp only [ha]
    rw [if_pos (h row hrow acc ha)]

theorem oldRowsOf_mk (a : List String) (b : List (List (String × String))) :
    oldRowsOf (some ⟨a, b⟩) = b := rfl

/-- Claim C8 as amended: provided every record accession is already
whitespace-trimmed (true of pipeline records, whose accessions are
directory names), a successful curation append never overwrites, reorders
or loses existing rows, keeps the file's own fieldnames, appends only
accessions absent from the file, and a second run on the same record set
appends nothing. -/
theorem append_missing_curation_additive_idempotent
    (file : Option CurationFile) (rows : List MetricRowIn) (out : Option CurationFile)
    (htrim : ∀ row ∈ rows, ∀ a, row.assembly_accession = some a → pyStripStr a = a)
    (hok : append_missing_curation file rows = Except.ok out) :
    (∀ f, file = some f → ∃ f' L, out = some f' ∧ f'.rows = f.rows ++ L
      ∧ (f.fieldnames = [] ∨ f'.fieldnames = f.fieldnames)
      ∧ (∀ q ∈ L, ∃ acc, dictGet q "assembly_accession" = some acc
          ∧ acc ∉ existingKeys f.rows))
    ∧ append_missing_curation out rows = Except.ok out := by
  simp only [append_missing_curation] at hok ⊢
  by_cases hnil : computeNewRows (existingKeys (oldRowsOf file)) rows = []
  · rw [if_pos hnil] at hok
    injection hok with hout
    subst hout
    constructor
    · intro f hf
      exact ⟨f, [], hf, by simp, Or.inr rfl, by simp⟩
    · rw [if_pos hnil]
  · rw [if_neg hnil] at hok
    by_cases herr : (computeNewRows (existingKeys (oldRowsOf file)) rows).any
        (fun row => rowHasExtraKey (effFieldnames file) row) = true
    · rw [if_pos herr] at hok
      simp at hok
    · rw [if_neg herr] at hok
      injection hok with hout'
      have hout : out = some ⟨effFieldnames file,
          oldRowsOf file ++ (computeNewRows (existingKeys (oldRowsOf file)) rows).map
            (serializeRow (effFieldnames file))⟩ := hout'.symm
      have hnoextra : ∀ q ∈ computeNewRows (existingKeys (oldRowsOf file)) rows,
          ∀ kv ∈ q, kv.1 ∈ effFieldnames file := by
        intro q hq kv hkv
        have h1 : rowHasExtraKey (effFieldnames file) q = false := by
          by_contra hcon
          refine herr (List.any_eq_true.mpr ⟨q, hq, ?_⟩)
          revert hcon
          cases rowHasExtraKey (effFieldnames file) q <;> simp
        simp only [rowHasExtraKey] at h1
        rw [List.any_eq_false] at h1
        have h2 := h1 kv hkv
        simpa using h2
      have hkeymem : "assembly_accession" ∈ effFieldnames file := by
        obtain ⟨q, hq⟩ := List.exists_mem_of_ne_nil _ hnil
        obtain ⟨row, hrow, acc, hacc, hcond, hqeq⟩ := computeNewRows_mem hq
        have hin : (("assembly_accession", acc) : String × String) ∈ q := by
          rw [hqeq]
          simp [newCurationRow]
        exact hnoextra q hq _ hin
      have hnil2 : computeNewRows (existingKeys (oldRowsOf file ++
          (computeNewRows (existingKeys (oldRowsOf file)) rows).map
            (serializeRow (effFieldnames file)))) rows = [] := by
        apply computeNewRows_eq_nil
        intro row hrow acc ha
        by_cases hc0 : acc = ""
        · exact Or.inl hc0
        · right
          rw [existingKeys_append]
          by_cases hc1 : acc ∈ existingKeys (oldRowsOf file)
          · exact List.mem_append_left _ hc1
          · refine List.mem_append_right _ ?_
            have hmem1 : newCurationRow acc (row.species.getD "") ∈
                computeNewRows (existingKeys (oldRowsOf file)) rows :=
              computeNewRows_mem_of hrow ha (by push_neg; exact ⟨hc0, hc1⟩)
            have hser : serializeRow (effFieldnames file)
                  (newCurationRow acc (row.species.getD "")) ∈
                (computeNewRows (existingKeys (oldRowsOf file)) rows).map
                  (serializeRow (effFieldnames file)) :=
              List.mem_map_of_mem _ hmem1
            have hackey : (dictGet (serializeRow (effFieldnames file)
                (newCurationRow acc (row.species.getD ""))) "assembly_accession").getD ""
                = acc := by
              rw [dictGet_serializeRow _ _ _ hkeymem, dictGet_newCurationRow_acc]
              rfl
            exact existingKeys_mem hser hackey (htrim row hrow acc ha) hc0
      constructor
      · intro f hf
        refine ⟨⟨effFieldnames file,
            oldRowsOf file ++ (computeNewRows (existingKeys (oldRowsOf file)) rows).map
              (serializeRow (effFieldnames file))⟩,
          (computeNewRows (existingKeys (oldRowsOf file)) rows).map
            (serializeRow (effFieldnames file)), hout, ?_, ?_, ?_⟩
        · rw [hf]
          simp [oldRowsOf]
        · by_cases hfn : f.fieldnames = []
          · exact Or.inl hfn
          · refine Or.inr ?_
            rw [hf]
            simp only [effFieldnames]
            rw [if_neg hfn]
        · intro q hq
          obtain ⟨q0, hq0, hqeq⟩ := List.mem_map.mp hq
          obtain ⟨row, hrow, acc, hacc, hcond, hq0eq⟩ := computeNewRows_mem hq0
          refine ⟨acc, ?_, ?_⟩
          · rw [← hqeq, hq0eq, dictGet_serializeRow _ _ _ hkeymem,
              dictGet_newCurationRow_acc]
            rfl
          · intro hmem
            refine hcond (Or.inr ?_)
            rw [hf]
            simpa [oldRowsOf] using hmem
      · rw [hout, oldRowsOf_mk, if_pos hnil2]

/-- The serialized curation row for accession `" A"` (note the leading
space). -/
def c8Row1 : List (String × String) :=
  [("assembly_accession", " A"), ("species", "Genus sp"), ("factoid", ""),
   ("display_species", ""), ("display_strain_name", "")]

def c8ExRows : List MetricRowIn :=
  [{ assembly_accession := some " A", species := some "Genus sp" }]

def c8ExFile0 : CurationFile := ⟨curationFieldnamesDefault, []⟩

def c8ExFile1 : CurationFile := ⟨curationFieldnamesDefault, [c8Row1]⟩

def c8ExFile2 : CurationFile := ⟨curationFieldnamesDefault, [c8Row1, c8Row1]⟩

/-- Counterexample to claim C8 as stated: a record whose accession carries
leading whitespace (truthy, so it is appended) reads back with a trimmed
key, so the second run on the same record set appends the row again instead
of appending zero rows. -/
theorem append_missing_curation_counterexample :
    append_missing_curation (some c8ExFile0) c8ExRows = Except.ok (some c8ExFile1)
    ∧ append_missing_curation (some c8ExFile1) c8ExRows = Except.ok (some c8ExFile2)
    ∧ c8ExFile1.rows.length = 1 ∧ c8ExFile2.rows.length = 2 :=
  ⟨rfl, rfl, rfl, rfl⟩

def c8WFile0 : CurationFile := ⟨curationFieldnamesDefault, []⟩

def c8WRows : List MetricRowIn :=
  [{ assembly_accession := some "B", species := some "Genus sp" }]

def c8WOut : Option CurationFile :=
  some ⟨curationFieldnamesDefault,
    [serializeRow curationFieldnamesDefault (newCurationRow "B" "Genus sp")]⟩

/-- Witness for the amended C8: with a trimmed accession the second run
returns the file unchanged, appending zero rows. -/
theorem append_missing_curation_additive_idempotent_witness :
    append_missing_curation c8WOut c8WRows = Except.ok c8WOut := by
  refine (append_missing_curation_additive_idempotent (some c8WFile0) c8WRows c8WOut
    ?_ rfl).2
  intro row hrow a ha
  simp only [c8WRows, List.mem_singleton] at hrow
  subst hrow
  injection ha with h
  subst h
  rfl
